import Mathlib

/-!
# Verification of the `gokitty` HTTP router (`pkg/mux/router.go`)

Shallow embedding of the route-matching and dispatch engine:

* Go strings are byte strings; we model them as `List Char` (one `Char` per
  byte for all ASCII data, which is the only data the matching algorithm
  inspects byte-wise).  `gs` converts a Lean string literal to this form.
* `map[string]string` is modelled as an association list with
  overwrite-on-insert semantics (`mapInsert` / `mapLookup`).
* Go code that can panic (indexing `segment[0]` on an empty string,
  `path[0]` on an empty string) is modelled with `Option`: `none` is a
  runtime panic, `some` a normal result.
* The request context is modelled by the single entry the router ever
  stores in it (`ctxValsKey ↦ map[string]string`), as `Option VarsMap`.
* A handler is opaque: we model it by a numeric identifier.  Dispatch
  returns an `Outcome` saying exactly which handler is invoked and with
  which (possibly derived) request, instead of running the handler.

Every definition mirrors the corresponding Go function in
`pkg/mux/router.go`; `url.QueryUnescape` is the Go standard library's
`unescape` in `encodeQueryComponent` mode, embedded byte-faithfully.
-/

/-- A Go string, seen as its sequence of bytes/characters. -/
abbrev GoStr := List Char

/-- Conversion of a Lean string literal to the Go-string model. -/
def gs (s : String) : GoStr := s.data

/-- A Go `map[string]string`, as an association list. -/
abbrev VarsMap := List (GoStr × GoStr)

/-- Go map assignment `m[k] = v`: overwrite the existing entry for `k`,
or append a fresh one. -/
def mapInsert (m : VarsMap) (k v : GoStr) : VarsMap :=
  match m with
  | [] => [(k, v)]
  | (k', v') :: rest => if k' = k then (k, v) :: rest else (k', v') :: mapInsert rest k v

/-- Go map read `v, ok := m[k]`. -/
def mapLookup (m : VarsMap) (k : GoStr) : Option GoStr :=
  match m with
  | [] => none
  | (k', v) :: rest => if k' = k then some v else mapLookup rest k

/-- Go `strings.Split(s, sep)` for a one-character separator: the chunks
between occurrences of `sep`.  Always returns at least one (possibly
empty) chunk, like Go's `Split` on a non-empty separator. -/
def splitSep (sep : Char) : GoStr → List GoStr
  | [] => [[]]
  | c :: cs =>
    match splitSep sep cs with
    | [] => [[]]
    | r :: rs => if c = sep then [] :: r :: rs else (c :: r) :: rs

/-- Go `ishex` from `net/url`. -/
def ishex (c : Char) : Bool :=
  ('0' ≤ c && c ≤ '9') || ('a' ≤ c && c ≤ 'f') || ('A' ≤ c && c ≤ 'F')

/-- Go `unhex` from `net/url`. -/
def unhex (c : Char) : Nat :=
  if '0' ≤ c && c ≤ '9' then c.toNat - '0'.toNat
  else if 'a' ≤ c && c ≤ 'f' then c.toNat - 'a'.toNat + 10
  else if 'A' ≤ c && c ≤ 'F' then c.toNat - 'A'.toNat + 10
  else 0

/-- The validation pass of Go's `net/url.unescape` in
`encodeQueryComponent` mode: every `%` must be followed by two hex
digits; otherwise the whole call fails. -/
def validEscapes : GoStr → Bool
  | [] => true
  | c :: rest =>
    if c = '%' then
      match rest with
      | a :: b :: rest2 => ishex a && ishex b && validEscapes rest2
      | _ => false
    else validEscapes rest

/-- The decoding pass of Go's `net/url.unescape` in
`encodeQueryComponent` mode (only reached on valid input): `%XY` becomes
the byte `16*X+Y`, `+` becomes a space, everything else is copied. -/
def unescapeRun : GoStr → GoStr
  | [] => []
  | '%' :: a :: b :: rest => Char.ofNat (16 * unhex a + unhex b) :: unescapeRun rest
  | '+' :: rest => ' ' :: unescapeRun rest
  | c :: rest => c :: unescapeRun rest

/-- Go `url.QueryUnescape(s)`, as the pair `(value, err == nil)`.
On a malformed escape Go returns `("", EscapeError …)`, i.e. the first
component is the empty string, not the input. -/
def QueryUnescape (s : GoStr) : GoStr × Bool :=
  if validEscapes s then (unescapeRun s, true) else ([], false)

/-- `route` from `router.go`: internal representation of a route.  The
opaque `handler func(http.ResponseWriter, *http.Request)` is modelled by
an identifier. -/
structure route where
  method : GoStr
  segments : List GoStr
  handler : Nat
  deriving DecidableEq, Repr

/-- `Router` from `router.go`.  `NotFoundHandler` is `nil` (`none`) or a
configured custom handler. -/
structure Router where
  NotFoundHandler : Option Nat := none
  routes : List route := []
  deriving DecidableEq, Repr

/-- The part of an `*http.Request` the router reads and writes: the
method, the escaped path (`req.URL.EscapedPath()`), and the context value
stored under the router's `ctxValsKey` (if any). -/
structure Request where
  method : GoStr
  escapedPath : GoStr
  ctx : Option VarsMap := none
  deriving DecidableEq, Repr

/-- `HandleFunc` from `router.go`.  `none` models a Go panic: after the
unguarded trailing-`/` strip, `path[0]` is evaluated, which panics
(index out of range) when the stripped path is empty — i.e. exactly when
the original path is `"/"`. -/
def HandleFunc (r : Router) (method : GoStr) (path : GoStr) (handler : Nat) :
    Option Router :=
  if path.length = 0 then some r
  else
    let path1 := if path.getLast? = some '/' then path.dropLast else path
    match path1 with
    | [] => none
    | c :: _ =>
      let path2 := if c ≠ '/' then '/' :: path1 else path1
      some { r with
        routes := r.routes ++
          [{ method := method, segments := (splitSep '/' path2).tail,
             handler := handler }] }

/-- `Var` from `router.go`: read the route variables of a request.
The `nil`-context and missing-key branches both yield `("", false)`
(Go's `v, ok := varsMap[key]` gives the zero value `""` when absent).
The failing type-assertion branch is unreachable in the model because
only the router's own `VarsMap` is ever stored under `ctxValsKey`. -/
def Var (r : Request) (key : GoStr) : GoStr × Bool :=
  match r.ctx with
  | none => ([], false)
  | some varsMap =>
    match mapLookup varsMap key with
    | none => ([], false)
    | some v => (v, true)

/-- The body of the `for i, segment := range route.segments` loop of
`match` in `router.go`, walking the two equally long segment lists in
parallel.  `none` models the Go panic of `segment[0]` when a route
segment is the empty string.  The final catch-all is dead code: `match`
only enters the loop after checking that the lists have equal length. -/
def matchSegs : List GoStr → List GoStr → VarsMap → Option (Bool × VarsMap)
  | [], [], vals => some (true, vals)
  | seg :: rsegs, s :: rss, vals =>
    match seg with
    | [] => none
    | c :: name =>
      if c = ':' then
        matchSegs rsegs rss (mapInsert vals name (QueryUnescape s).1)
      else if s ≠ seg then some (false, [])
      else matchSegs rsegs rss vals
  | _, _, _ => some (false, [])

/-- `match` from `router.go` (a Lean keyword, hence `matchRoute`):
reject on method or segment-count mismatch, otherwise walk the segments.
Go returns `(false, nil)` on a reject; the `nil` map is modelled as `[]`
(indistinguishable here: a rejected route's map is never read). -/
def matchRoute (rt : route) (method : GoStr) (segments : List GoStr) :
    Option (Bool × VarsMap) :=
  if ¬(method = rt.method) ∨ ¬(segments.length = rt.segments.length) then
    some (false, [])
  else
    matchSegs rt.segments segments []

/-- What one `ServeHTTP` call does, observably: invoke the handler of
the route at index `idx` with a (possibly derived) request, invoke the
configured custom not-found handler, or run the built-in `pageNotFound`
fallback. -/
inductive Outcome where
  | matched (idx : Nat) (handler : Nat) (req : Request)
  | notFoundCustom (handler : Nat)
  | notFoundDefault
  deriving DecidableEq, Repr

/-- The response written by `pageNotFound` in `router.go`. -/
structure Response where
  status : Nat
  body : GoStr
  deriving DecidableEq, Repr

/-- `pageNotFound` from `router.go`: status 404 and a fixed body. -/
def pageNotFound : Response :=
  { status := 404, body := gs "404.4 – No handler configured." }

/-- The request-path cleaning and splitting at the top of `ServeHTTP`:
strip one trailing `/`, split on `/`, drop the first chunk. -/
def requestSegments (req : Request) : List GoStr :=
  let path :=
    if req.escapedPath.length > 0 ∧ req.escapedPath.getLast? = some '/' then
      req.escapedPath.dropLast
    else req.escapedPath
  (splitSep '/' path).tail

/-- The `for _, route := range r.routes` loop of `ServeHTTP`, keeping
the index of the route being tried.  Result: `none` is a panic inside
`match`; `some none` means no route matched; `some (some (i, rt, vars))`
means the route at index `i` is the first match, with captured `vars`. -/
def findMatch (method : GoStr) (segments : List GoStr) :
    List route → Nat → Option (Option (Nat × route × VarsMap))
  | [], _ => some none
  | rt :: rest, i =>
    match matchRoute rt method segments with
    | none => none
    | some (true, vars) => some (some (i, rt, vars))
    | some (false, _) => findMatch method segments rest (i + 1)

/-- `ServeHTTP` from `router.go`.  On a match the handler gets
`req.WithContext(context.WithValue(req.Context(), ctxValsKey, vars))`
when `len(vars) > 0` — a derived request with the bindings stored in its
context — and the unchanged original request otherwise.  On no match the
custom `NotFoundHandler` runs if configured, else `pageNotFound`. -/
def ServeHTTP (r : Router) (req : Request) : Option Outcome :=
  match findMatch req.method (requestSegments req) r.routes 0 with
  | none => none
  | some (some (i, rt, vars)) =>
    let req' := if vars.length > 0 then { req with ctx := some vars } else req
    some (.matched i rt.handler req')
  | some none =>
    match r.NotFoundHandler with
    | some h => some (.notFoundCustom h)
    | none => some .notFoundDefault

/-! ## General lemmas about the embedded code -/

/-- The segment-walking loop never panics when every route segment is a
non-empty string (so `segment[0]` is always in range). -/
theorem matchSegs_ne_none (rsegs : List GoStr) :
    ∀ (reqsegs : List GoStr) (vals : VarsMap),
      (∀ seg ∈ rsegs, seg ≠ []) → matchSegs rsegs reqsegs vals ≠ none := by
  induction rsegs with
  | nil =>
    intro reqsegs vals _
    cases reqsegs <;> simp [matchSegs]
  | cons seg rsegs ih =>
    intro reqsegs vals hne
    cases reqsegs with
    | nil => simp [matchSegs]
    | cons s rss =>
      have hseg : seg ≠ [] := hne seg (by simp)
      cases seg with
      | nil => exact absurd rfl hseg
      | cons c name =>
        simp only [matchSegs]
        by_cases hc : c = ':'
        · simp only [hc, if_pos rfl]
          exact ih rss _ (fun t ht => hne t (by simp [ht]))
        · simp only [if_neg hc]
          by_cases hs : s ≠ (c :: name)
          · simp [hs]
          · simp only [if_neg hs]
            exact ih rss vals (fun t ht => hne t (by simp [ht]))

/-- `match` never panics on a route whose pattern segments are all
non-empty strings. -/
theorem matchRoute_ne_none (rt : route) (method : GoStr) (segments : List GoStr)
    (h : ∀ seg ∈ rt.segments, seg ≠ []) :
    matchRoute rt method segments ≠ none := by
  unfold matchRoute
  by_cases hcond : ¬(method = rt.method) ∨ ¬(segments.length = rt.segments.length)
  · simp [hcond]
  · simp only [if_neg hcond]
    exact matchSegs_ne_none rt.segments segments [] h

/-- `match` rejects (returning `(false, nil)`) as soon as the method or
the segment count differs. -/
theorem matchRoute_reject (rt : route) (method : GoStr) (segments : List GoStr)
    (h : ¬(method = rt.method) ∨ ¬(segments.length = rt.segments.length)) :
    matchRoute rt method segments = some (false, []) := by
  unfold matchRoute
  simp [h]

/-- The route-scanning loop never panics when every segment of every
registered route is a non-empty string. -/
theorem findMatch_ne_none (method : GoStr) (segments : List GoStr)
    (routes : List route) :
    ∀ i, (∀ rt ∈ routes, ∀ seg ∈ rt.segments, seg ≠ []) →
      findMatch method segments routes i ≠ none := by
  induction routes with
  | nil => intro i _; simp [findMatch]
  | cons rt rest ih =>
    intro i hne
    simp only [findMatch]
    rcases hm : matchRoute rt method segments with _ | ⟨b, vars⟩
    · exact absurd hm (matchRoute_ne_none rt method segments (hne rt (by simp)))
    · cases b
      · exact ih (i + 1) (fun t ht => hne t (by simp [ht]))
      · simp

/-- If every registered route rejects the request, the scanning loop
reports "no match". -/
theorem findMatch_none_of_all_reject (method : GoStr) (segments : List GoStr)
    (routes : List route) :
    ∀ i, (∀ rt ∈ routes, ∃ v, matchRoute rt method segments = some (false, v)) →
      findMatch method segments routes i = some none := by
  induction routes with
  | nil => intro i _; simp [findMatch]
  | cons rt rest ih =>
    intro i hrej
    obtain ⟨v, hv⟩ := hrej rt (by simp)
    simp only [findMatch, hv]
    exact ih (i + 1) (fun t ht => hrej t (by simp [ht]))

/-- The scanning loop returns the first matching route: the reported
index is the counter plus the offset of the match, the reported route
matches, and every route strictly before the reported one rejects. -/
theorem findMatch_priority (method : GoStr) (segments : List GoStr)
    (routes : List route) :
    ∀ i j rt vars, findMatch method segments routes i = some (some (j, rt, vars)) →
      i ≤ j ∧ matchRoute rt method segments = some (true, vars) ∧
      ∀ k (hk : k < routes.length), k < j - i →
        ∃ v, matchRoute (routes.get ⟨k, hk⟩) method segments = some (false, v) := by
  induction routes with
  | nil => intro i j rt vars h; simp [findMatch] at h
  | cons rt0 rest ih =>
    intro i j rt vars h
    simp only [findMatch] at h
    rcases hm : matchRoute rt0 method segments with _ | ⟨b, v0⟩
    · rw [hm] at h; exact absurd h (by simp)
    · rw [hm] at h
      cases b with
      | true =>
        obtain ⟨h1, h2, h3⟩ : i = j ∧ rt0 = rt ∧ v0 = vars := by simpa using h
        subst h1; subst h2; subst h3
        refine ⟨le_refl _, hm, ?_⟩
        intro k hk hkj
        omega
      | false =>
        simp only at h
        obtain ⟨hle, hmatch, hrest⟩ := ih (i + 1) j rt vars h
        refine ⟨by omega, hmatch, ?_⟩
        intro k hk hkj
        cases k with
        | zero => exact ⟨v0, hm⟩
        | succ k' =>
          have hk' : k' < rest.length := by simpa using hk
          have hlt : k' < j - (i + 1) := by omega
          exact hrest k' hk' hlt

/-- Inversion for a dispatched match: `ServeHTTP` reported the handler
of the route the scanning loop found, applied to the derived request
(original request when no variables were captured). -/
theorem ServeHTTP_matched_inv (r : Router) (req : Request) (j h : Nat)
    (req' : Request) (hs : ServeHTTP r req = some (.matched j h req')) :
    ∃ rt vars,
      findMatch req.method (requestSegments req) r.routes 0 = some (some (j, rt, vars)) ∧
      rt.handler = h ∧
      req' = (if vars.length > 0 then { req with ctx := some vars } else req) := by
  unfold ServeHTTP at hs
  rcases hf : findMatch req.method (requestSegments req) r.routes 0 with _ | ⟨_ | ⟨i, rt, vars⟩⟩
  · rw [hf] at hs; exact absurd hs (by simp)
  · rw [hf] at hs
    rcases hn : r.NotFoundHandler with _ | h0 <;> rw [hn] at hs <;> simp at hs
  · rw [hf] at hs
    simp only at hs
    obtain ⟨h1, h2, h3⟩ : i = j ∧ rt.handler = h ∧
        (if vars.length > 0 then { req with ctx := some vars } else req) = req' := by
      simpa using hs
    subst h1
    exact ⟨rt, vars, rfl, h2, h3.symm⟩

/-- Decoding a `+` always yields a space in query-component unescaping. -/
theorem unescapeRun_plus (rest : GoStr) :
    unescapeRun ('+' :: rest) = ' ' :: unescapeRun rest := by
  cases rest with
  | nil => rfl
  | cons a as =>
    cases as with
    | nil => rfl
    | cons b bs => rfl

/-- When validation fails, `url.QueryUnescape` returns the empty string
as its value (Go returns `"", EscapeError(…)`). -/
theorem QueryUnescape_invalid (s : GoStr) (h : validEscapes s = false) :
    (QueryUnescape s).1 = [] := by
  simp [QueryUnescape, h]

/-- Registration succeeds — appending exactly one route with the given
method and handler — for every non-empty path other than `"/"`. -/
theorem HandleFunc_total (r : Router) (method path : GoStr) (handler : Nat)
    (h0 : path ≠ []) (h1 : path ≠ ['/']) :
    ∃ rt, HandleFunc r method path handler =
        some { r with routes := r.routes ++ [rt] } ∧
      rt.method = method ∧ rt.handler = handler := by
  unfold HandleFunc
  have hlen : ¬ path.length = 0 := by simpa using h0
  simp only [if_neg hlen]
  by_cases hlast : path.getLast? = some '/'
  · simp only [hlast, if_pos rfl]
    rcases hd : path.dropLast with _ | ⟨c, cs⟩
    · exfalso
      have hle : path.length ≤ 1 := by
        have := congrArg List.length hd
        simp [List.length_dropLast] at this
        omega
      interval_cases hp : path.length
      · exact h0 (List.length_eq_zero.mp hp)
      · obtain ⟨a, ha⟩ := List.length_eq_one.mp hp
        subst ha
        simp [List.getLast?] at hlast
        exact h1 (by simp [hlast])
    · by_cases hc : c = '/'
      · refine ⟨⟨method, (splitSep '/' (c :: cs)).tail, handler⟩, ?_, rfl, rfl⟩
        simp [hc]
      · refine ⟨⟨method, (splitSep '/' ('/' :: c :: cs)).tail, handler⟩, ?_, rfl, rfl⟩
        simp [hc]
  · simp only [hlast]
    rcases hp : path with _ | ⟨c, cs⟩
    · exact absurd hp h0
    · by_cases hc : c = '/'
      · refine ⟨⟨method, (splitSep '/' (c :: cs)).tail, handler⟩, ?_, rfl, rfl⟩
        simp [hc]
      · refine ⟨⟨method, (splitSep '/' ('/' :: c :: cs)).tail, handler⟩, ?_, rfl, rfl⟩
        simp [hc]

/-- Dispatch always produces an outcome when every segment of every
registered route is non-empty. -/
theorem ServeHTTP_total (r : Router) (req : Request)
    (h : ∀ rt ∈ r.routes, ∀ seg ∈ rt.segments, seg ≠ []) :
    ∃ o, ServeHTTP r req = some o := by
  unfold ServeHTTP
  rcases hf : findMatch req.method (requestSegments req) r.routes 0 with _ | ⟨_ | ⟨i, rt, vars⟩⟩
  · exact absurd hf (findMatch_ne_none req.method (requestSegments req) r.routes 0 h)
  · rcases r.NotFoundHandler with _ | h0 <;> simp
  · simp

/-! ## Claims -/

/-- Claim C1, counterexample: binding the request segment `%zz` (a
malformed escape) to `:key` captures the empty string — which `Var`
then returns — not the raw text `%zz` as the claim states. -/
theorem C1_counterexample :
    (HandleFunc {} (gs "GET") (gs "/x/:key") 5).bind
        (fun r => ServeHTTP r { method := gs "GET", escapedPath := gs "/x/%zz" }) =
      some (.matched 0 5
        { method := gs "GET", escapedPath := gs "/x/%zz", ctx := some [(gs "key", gs "")] }) ∧
    Var { method := gs "GET", escapedPath := gs "/x/%zz", ctx := some [(gs "key", gs "")] }
        (gs "key") = (gs "", true) ∧
    gs "" ≠ gs "%zz" := by
  refine ⟨by rfl, by rfl, by decide⟩

/-- Claim C1 (amended): when percent-decoding of a segment bound to a
`Parameter` fails, matching still proceeds normally and records the
*empty string* (the value half of `url.QueryUnescape`'s error return) as
the captured value; no error is surfaced and the request does not
fail. -/
theorem C1_decode_failure_empty_value (name : GoStr) (rsegs rss : List GoStr)
    (s : GoStr) (vals : VarsMap) :
    matchSegs ((':' :: name) :: rsegs) (s :: rss) vals =
      matchSegs rsegs rss (mapInsert vals name (QueryUnescape s).1) ∧
    (validEscapes s = false → (QueryUnescape s).1 = []) := by
  constructor
  · simp [matchSegs]
  · intro h
    exact QueryUnescape_invalid s h

/-- Witness for C1: the malformed segment `%zz` fails validation and is
captured as the empty string while the match of the remaining segments
continues. -/
theorem C1_decode_failure_empty_value_witness :
    validEscapes (gs "%zz") = false ∧
    (matchSegs [gs ":key"] [gs "%zz"] [] =
        matchSegs [] [] (mapInsert [] (gs "key") (QueryUnescape (gs "%zz")).1) ∧
      (validEscapes (gs "%zz") = false → (QueryUnescape (gs "%zz")).1 = [])) :=
  ⟨by decide, C1_decode_failure_empty_value (gs "key") [] [] (gs "%zz") []⟩

/-- Claim C2, counterexample: registering the pattern `/a//b` (an empty
middle segment) and dispatching `GET /a/x/b` makes `match` evaluate
`segment[0]` on the empty string — a Go panic, modelled as `none` — so
dispatch does abort on this combination, contrary to the claim. -/
theorem C2_counterexample :
    (HandleFunc {} (gs "GET") (gs "/a//b") 7).bind
        (fun r => ServeHTTP r { method := gs "GET", escapedPath := gs "/a/x/b" }) =
      none := by
  rfl

/-- Claim C2 (amended): dispatch is total — it terminates with exactly
one outcome, a matched handler invocation or a fallback invocation —
for every method, path and route table in which no registered route has
an empty pattern segment (patterns such as `/a//b` are excluded: on them
`match` panics via `segment[0]`). -/
theorem C2_total_dispatch (r : Router) (req : Request)
    (h : ∀ rt ∈ r.routes, ∀ seg ∈ rt.segments, seg ≠ []) :
    ∃ o, ServeHTTP r req = some o ∧
      ((∃ i hdlr req', o = .matched i hdlr req') ∨
        (∃ hdlr, o = .notFoundCustom hdlr) ∨ o = .notFoundDefault) := by
  obtain ⟨o, ho⟩ := ServeHTTP_total r req h
  refine ⟨o, ho, ?_⟩
  cases o with
  | matched i hdlr req' => exact Or.inl ⟨i, hdlr, req', rfl⟩
  | notFoundCustom hdlr => exact Or.inr (Or.inl ⟨hdlr, rfl⟩)
  | notFoundDefault => exact Or.inr (Or.inr rfl)

/-- Witness for C2: a table whose only route is `GET /kitty/:uid` has no
empty pattern segment, and dispatch of `GET /kitty/abc` over it yields
an outcome. -/
theorem C2_total_dispatch_witness :
    (∀ rt ∈ ({ NotFoundHandler := none, routes := [⟨gs "GET", [gs "kitty", gs ":uid"], 3⟩] } :
        Router).routes, ∀ seg ∈ rt.segments, seg ≠ []) ∧
    ∃ o, ServeHTTP { NotFoundHandler := none, routes := [⟨gs "GET", [gs "kitty", gs ":uid"], 3⟩] }
        { method := gs "GET", escapedPath := gs "/kitty/abc", ctx := none } = some o ∧
      ((∃ i hdlr req', o = .matched i hdlr req') ∨
        (∃ hdlr, o = .notFoundCustom hdlr) ∨ o = .notFoundDefault) :=
  ⟨by decide, C2_total_dispatch _ _ (by decide)⟩

/-- Claim C3, counterexample: registering the one-character path `"/"`
aborts — the trailing-slash strip leaves the empty string and `path[0]`
panics (index out of range), modelled as `none`. -/
theorem C3_counterexample :
    HandleFunc {} (gs "GET") (gs "/") 0 = none := by
  rfl

/-- Claim C3 (amended): for every non-empty path other than `"/"`,
registration completes normally with no signaled error — the trailing
`/` is normalized away, a missing leading `/` is prepended, and exactly
one route with the given method and handler is appended to the table.
The path `"/"` is excluded: on it `HandleFunc` panics. -/
theorem C3_registration_total (r : Router) (method path : GoStr) (handler : Nat)
    (h0 : path ≠ []) (h1 : path ≠ ['/']) :
    ∃ rt, HandleFunc r method path handler =
        some { r with routes := r.routes ++ [rt] } ∧
      rt.method = method ∧ rt.handler = handler := by
  unfold HandleFunc
  have hlen : ¬ path.length = 0 := by simpa using h0
  simp only [if_neg hlen]
  by_cases hlast : path.getLast? = some '/'
  · simp only [hlast, if_pos rfl]
    rcases hd : path.dropLast with _ | ⟨c, cs⟩
    · exfalso
      have hle : path.length ≤ 1 := by
        have := congrArg List.length hd
        simp [List.length_dropLast] at this
        omega
      interval_cases hp : path.length
      · exact h0 (List.length_eq_zero.mp hp)
      · obtain ⟨a, ha⟩ := List.length_eq_one.mp hp
        subst ha
        simp [List.getLast?] at hlast
        exact h1 (by simp [hlast])
    · by_cases hc : c = '/'
      · refine ⟨⟨method, (splitSep '/' (c :: cs)).tail, handler⟩, ?_, rfl, rfl⟩
        simp [hc]
      · refine ⟨⟨method, (splitSep '/' ('/' :: c :: cs)).tail, handler⟩, ?_, rfl, rfl⟩
        simp [hc]
  · simp only [hlast]
    rcases hp : path with _ | ⟨c, cs⟩
    · exact absurd hp h0
    · by_cases hc : c = '/'
      · refine ⟨⟨method, (splitSep '/' (c :: cs)).tail, handler⟩, ?_, rfl, rfl⟩
        simp [hc]
      · refine ⟨⟨method, (splitSep '/' ('/' :: c :: cs)).tail, handler⟩, ?_, rfl, rfl⟩
        simp [hc]

/-- Witness for C3: registering `GET /abc/` on an empty router appends
one route. -/
theorem C3_registration_total_witness :
    gs "/abc/" ≠ [] ∧ gs "/abc/" ≠ ['/'] ∧
    ∃ rt, HandleFunc { NotFoundHandler := none, routes := [] }
        (gs "GET") (gs "/abc/") 2 =
        some { NotFoundHandler := none, routes := [rt] } ∧
      rt.method = gs "GET" ∧ rt.handler = 2 :=
  ⟨by decide, by decide,
    C3_registration_total { NotFoundHandler := none, routes := [] }
      (gs "GET") (gs "/abc/") 2 (by decide) (by decide)⟩

/-- Claim C4: the route registered earliest wins.  (a) Whenever dispatch
reports a match at index `j`, every route at an earlier index rejected
the request.  (b) After registering `/found/:key` then `/found/hello`
(same method), `GET /found/hello` is dispatched to the `:key` route
(index 0, handler 1) with `key` bound to `"hello"`.  (c) Registering the
same pattern twice dispatches to the first registration only. -/
theorem C4_first_registered_wins :
    (∀ (r : Router) (req : Request) (j hdlr : Nat) (req' : Request),
      ServeHTTP r req = some (.matched j hdlr req') →
      ∀ k (hk : k < r.routes.length), k < j →
        ∃ v, matchRoute (r.routes.get ⟨k, hk⟩) req.method (requestSegments req) =
          some (false, v)) ∧
    (HandleFunc {} (gs "GET") (gs "/found/:key") 1).bind (fun r =>
        (HandleFunc r (gs "GET") (gs "/found/hello") 2).bind (fun r2 =>
          ServeHTTP r2 { method := gs "GET", escapedPath := gs "/found/hello", ctx := none })) =
      some (.matched 0 1
        { method := gs "GET", escapedPath := gs "/found/hello",
          ctx := some [(gs "key", gs "hello")] }) ∧
    (HandleFunc {} (gs "GET") (gs "/found") 1).bind (fun r =>
        (HandleFunc r (gs "GET") (gs "/found") 2).bind (fun r2 =>
          ServeHTTP r2 { method := gs "GET", escapedPath := gs "/found", ctx := none })) =
      some (.matched 0 1 { method := gs "GET", escapedPath := gs "/found", ctx := none }) := by
  refine ⟨?_, by rfl, by rfl⟩
  intro r req j hdlr req' hs k hk hkj
  obtain ⟨rt, vars, hf, _, _⟩ := ServeHTTP_matched_inv r req j hdlr req' hs
  obtain ⟨_, _, hprev⟩ :=
    findMatch_priority req.method (requestSegments req) r.routes 0 j rt vars hf
  exact hprev k hk (by omega)

/-- Witness for C4: with routes `GET /found/bye` (index 0) and
`GET /found/:key` (index 1), the request `GET /found/hello` is matched
at index 1, and the route at index 0 indeed rejected it. -/
theorem C4_first_registered_wins_witness :
    ServeHTTP { NotFoundHandler := none,
                routes := [⟨gs "GET", [gs "found", gs "bye"], 1⟩,
                           ⟨gs "GET", [gs "found", gs ":key"], 2⟩] }
        { method := gs "GET", escapedPath := gs "/found/hello", ctx := none } =
      some (.matched 1 2
        { method := gs "GET", escapedPath := gs "/found/hello",
          ctx := some [(gs "key", gs "hello")] }) ∧
    ∃ v, matchRoute ⟨gs "GET", [gs "found", gs "bye"], 1⟩ (gs "GET")
        (requestSegments { method := gs "GET", escapedPath := gs "/found/hello", ctx := none }) =
      some (false, v) :=
  ⟨by rfl,
    C4_first_registered_wins.1
      { NotFoundHandler := none,
        routes := [⟨gs "GET", [gs "found", gs "bye"], 1⟩,
                    ⟨gs "GET", [gs "found", gs ":key"], 2⟩] }
      { method := gs "GET", escapedPath := gs "/found/hello", ctx := none }
      1 2
      { method := gs "GET", escapedPath := gs "/found/hello",
        ctx := some [(gs "key", gs "hello")] }
      (by rfl) 0 (by decide) (by decide)⟩

/-- Claim C5: a route is rejected whenever the method or the segment
count differs; consequently `GET /hello/` is stored as the one-segment
route `GET /hello` and never matches `GET /hello/world` (the request
falls through to the fallback). -/
theorem C5_method_and_count_reject :
    (∀ (rt : route) (method : GoStr) (segments : List GoStr),
      ¬(method = rt.method) ∨ ¬(segments.length = rt.segments.length) →
      matchRoute rt method segments = some (false, [])) ∧
    HandleFunc {} (gs "GET") (gs "/hello/") 9 =
      some { NotFoundHandler := none, routes := [⟨gs "GET", [gs "hello"], 9⟩] } ∧
    (HandleFunc {} (gs "GET") (gs "/hello/") 9).bind (fun r =>
        ServeHTTP r { method := gs "GET", escapedPath := gs "/hello/world", ctx := none }) =
      some .notFoundDefault :=
  ⟨matchRoute_reject, by rfl, by rfl⟩

/-- Witness for C5: a method mismatch (`POST` against the stored
`GET /hello` route) is rejected. -/
theorem C5_method_and_count_reject_witness :
    ¬(gs "POST" = gs "GET") ∧
    matchRoute ⟨gs "GET", [gs "hello"], 9⟩ (gs "POST") [gs "hello"] = some (false, []) :=
  ⟨by decide,
    C5_method_and_count_reject.1 ⟨gs "GET", [gs "hello"], 9⟩ (gs "POST") [gs "hello"]
      (Or.inl (by decide))⟩

/-- Claim C6: registering `GET /val/:key/:action` and dispatching
`GET /val/eyfgt654/run` invokes that route's handler, and `Var` on the
derived request returns `("eyfgt654", true)` for `"key"` and
`("run", true)` for `"action"`. -/
theorem C6_parameter_capture :
    (HandleFunc {} (gs "GET") (gs "/val/:key/:action") 3).bind (fun r =>
        ServeHTTP r { method := gs "GET", escapedPath := gs "/val/eyfgt654/run", ctx := none }) =
      some (.matched 0 3
        { method := gs "GET", escapedPath := gs "/val/eyfgt654/run",
          ctx := some [(gs "key", gs "eyfgt654"), (gs "action", gs "run")] }) ∧
    Var { method := gs "GET", escapedPath := gs "/val/eyfgt654/run",
          ctx := some [(gs "key", gs "eyfgt654"), (gs "action", gs "run")] } (gs "key") =
      (gs "eyfgt654", true) ∧
    Var { method := gs "GET", escapedPath := gs "/val/eyfgt654/run",
          ctx := some [(gs "key", gs "eyfgt654"), (gs "action", gs "run")] } (gs "action") =
      (gs "run", true) :=
  ⟨by rfl, by rfl, by rfl⟩

/-- Claim C7: when no registered route matches, exactly one fallback
runs — the configured custom handler if one was supplied, otherwise the
built-in default — and the built-in default writes status 404 with the
exact literal body. -/
theorem C7_fallback (r : Router) (req : Request)
    (h : ∀ rt ∈ r.routes,
      ∃ v, matchRoute rt req.method (requestSegments req) = some (false, v)) :
    (∀ hdlr, r.NotFoundHandler = some hdlr →
      ServeHTTP r req = some (.notFoundCustom hdlr)) ∧
    (r.NotFoundHandler = none → ServeHTTP r req = some .notFoundDefault) ∧
    pageNotFound = { status := 404, body := gs "404.4 – No handler configured." } := by
  have hf := findMatch_none_of_all_reject req.method (requestSegments req) r.routes 0 h
  refine ⟨?_, ?_, rfl⟩
  · intro hdlr hn
    unfold ServeHTTP
    rw [hf, hn]
  · intro hn
    unfold ServeHTTP
    rw [hf, hn]

/-- Witness for C7: the single route `GET /a` rejects `POST /a`
(method mismatch), and the router with a configured custom handler 42
dispatches to that custom handler. -/
theorem C7_fallback_witness :
    (∀ rt ∈ ({ NotFoundHandler := some 42, routes := [⟨gs "GET", [gs "a"], 1⟩] } :
        Router).routes,
      ∃ v, matchRoute rt (gs "POST")
        (requestSegments { method := gs "POST", escapedPath := gs "/a", ctx := none }) =
        some (false, v)) ∧
    ServeHTTP { NotFoundHandler := some 42, routes := [⟨gs "GET", [gs "a"], 1⟩] }
        { method := gs "POST", escapedPath := gs "/a", ctx := none } =
      some (.notFoundCustom 42) := by
  have h : ∀ rt ∈ ({ NotFoundHandler := some 42, routes := [⟨gs "GET", [gs "a"], 1⟩] } :
      Router).routes,
      ∃ v, matchRoute rt (gs "POST")
        (requestSegments { method := gs "POST", escapedPath := gs "/a", ctx := none }) =
        some (false, v) := by
    intro rt hrt
    simp only [List.mem_singleton] at hrt
    subst hrt
    exact ⟨[], by rfl⟩
  exact ⟨h, (C7_fallback _ _ h).1 42 rfl⟩

/-- Claim C8: `Var` returns not-found when the request context carries
no bindings, not-found when bindings exist but the key is absent, and
the captured value with `found = true` when the key is present.  `Var`
is a pure function of the request in this embedding, exactly as the Go
body only reads `r.Context().Value(…)` and a map entry — it performs no
mutation of the request or its context. -/
theorem C8_Var_contract :
    (∀ (req : Request) (key : GoStr), req.ctx = none → Var req key = ([], false)) ∧
    (∀ (req : Request) (key : GoStr) (m : VarsMap),
      req.ctx = some m → mapLookup m key = none → Var req key = ([], false)) ∧
    (∀ (req : Request) (key : GoStr) (m : VarsMap) (v : GoStr),
      req.ctx = some m → mapLookup m key = some v → Var req key = (v, true)) := by
  refine ⟨?_, ?_, ?_⟩
  · intro req key h
    simp only [Var, h]
  · intro req key m h hl
    simp only [Var, h, hl]
  · intro req key m v h hl
    simp only [Var, h, hl]

/-- Witness for C8: the three branches of the `Var` contract at
concrete requests — no context entry, key absent, key present. -/
theorem C8_Var_contract_witness :
    Var { method := gs "GET", escapedPath := gs "/a", ctx := none } (gs "k") = ([], false) ∧
    Var { method := gs "GET", escapedPath := gs "/a",
          ctx := some [(gs "a", gs "1")] } (gs "k") = ([], false) ∧
    Var { method := gs "GET", escapedPath := gs "/a",
          ctx := some [(gs "k", gs "7")] } (gs "k") = (gs "7", true) :=
  ⟨C8_Var_contract.1 { method := gs "GET", escapedPath := gs "/a", ctx := none } (gs "k") rfl,
    C8_Var_contract.2.1 { method := gs "GET", escapedPath := gs "/a",
                          ctx := some [(gs "a", gs "1")] }
      (gs "k") [(gs "a", gs "1")] rfl (by decide),
    C8_Var_contract.2.2 { method := gs "GET", escapedPath := gs "/a",
                          ctx := some [(gs "k", gs "7")] }
      (gs "k") [(gs "k", gs "7")] (gs "7") rfl (by decide)⟩

/-- Claim C9: on a successful match the handler receives a request that
agrees with the original on method and path; it is the original request
itself when no parameters were captured, and the original with the
captured bindings stored in its context when some were.  The original
request value is unchanged either way — the embedding is functional,
matching the Go code, which only builds a derived request via
`WithContext` and never writes to the original. -/
theorem C9_derived_request (r : Router) (req : Request) (j hdlr : Nat) (req' : Request)
    (hs : ServeHTTP r req = some (.matched j hdlr req')) :
    ∃ rt vars,
      findMatch req.method (requestSegments req) r.routes 0 = some (some (j, rt, vars)) ∧
      req'.method = req.method ∧ req'.escapedPath = req.escapedPath ∧
      (vars = [] → req' = req) ∧
      (vars ≠ [] → req' = { req with ctx := some vars }) := by
  obtain ⟨rt, vars, hf, hh, hreq⟩ := ServeHTTP_matched_inv r req j hdlr req' hs
  rcases vars with _ | ⟨p, ps⟩
  · simp only [List.length_nil, gt_iff_lt, lt_self_iff_false, if_false] at hreq
    subst hreq
    exact ⟨rt, [], hf, rfl, rfl, fun _ => rfl, fun hne => absurd rfl hne⟩
  · simp only [List.length_cons, gt_iff_lt, Nat.succ_pos, if_true] at hreq
    subst hreq
    exact ⟨rt, p :: ps, hf, rfl, rfl,
      fun hab => absurd hab (List.cons_ne_nil p ps), fun _ => rfl⟩

/-- Witness for C9: dispatching `GET /kitty/abc` over the single route
`GET /kitty/:uid` matches with the non-empty binding `uid ↦ abc`, so
the handler receives the derived request carrying that binding. -/
theorem C9_derived_request_witness :
    ServeHTTP { NotFoundHandler := none, routes := [⟨gs "GET", [gs "kitty", gs ":uid"], 4⟩] }
        { method := gs "GET", escapedPath := gs "/kitty/abc", ctx := none } =
      some (.matched 0 4
        { method := gs "GET", escapedPath := gs "/kitty/abc",
          ctx := some [(gs "uid", gs "abc")] }) ∧
    ∃ rt vars,
      findMatch (gs "GET")
          (requestSegments { method := gs "GET", escapedPath := gs "/kitty/abc", ctx := none })
          [⟨gs "GET", [gs "kitty", gs ":uid"], 4⟩] 0 = some (some (0, rt, vars)) ∧
      gs "GET" = gs "GET" ∧ gs "/kitty/abc" = gs "/kitty/abc" ∧
      (vars = [] →
        ({ method := gs "GET", escapedPath := gs "/kitty/abc",
           ctx := some [(gs "uid", gs "abc")] } : Request) =
        { method := gs "GET", escapedPath := gs "/kitty/abc", ctx := none }) ∧
      (vars ≠ [] →
        ({ method := gs "GET", escapedPath := gs "/kitty/abc",
           ctx := some [(gs "uid", gs "abc")] } : Request) =
        { method := gs "GET", escapedPath := gs "/kitty/abc", ctx := some vars }) :=
  ⟨by rfl,
    C9_derived_request
      { NotFoundHandler := none, routes := [⟨gs "GET", [gs "kitty", gs ":uid"], 4⟩] }
      { method := gs "GET", escapedPath := gs "/kitty/abc", ctx := none }
      0 4
      { method := gs "GET", escapedPath := gs "/kitty/abc", ctx := some [(gs "uid", gs "abc")] }
      (by rfl)⟩

/-- Claim C10: captured values go through *query-string* unescaping, so
a `+` in the raw request segment becomes a space in the captured value:
`unescapeRun` rewrites every leading `+` to `' '` (and is applied
recursively to the rest), `QueryUnescape` turns `a+b` into `a b`, and a
request segment `a+b` bound to `:key` is observed as `"a b"` through
`Var` by the dispatched handler. -/
theorem C10_plus_to_space :
    (∀ rest : GoStr, unescapeRun ('+' :: rest) = ' ' :: unescapeRun rest) ∧
    QueryUnescape (gs "a+b") = (gs "a b", true) ∧
    (HandleFunc {} (gs "GET") (gs "/x/:key") 5).bind (fun r =>
        ServeHTTP r { method := gs "GET", escapedPath := gs "/x/a+b", ctx := none }) =
      some (.matched 0 5
        { method := gs "GET", escapedPath := gs "/x/a+b",
          ctx := some [(gs "key", gs "a b")] }) ∧
    Var { method := gs "GET", escapedPath := gs "/x/a+b",
          ctx := some [(gs "key", gs "a b")] } (gs "key") = (gs "a b", true) :=
  ⟨unescapeRun_plus, by rfl, by rfl, by rfl⟩
